import Mathlib

/-!
Shallow embedding of `exa.core.data` (the `Data` class of the exa repository)
and verification of the specification's claims about it.

Tables are modelled column-major: a table is an ordered association list from
column name to a column (a dtype label and a list of values), plus the
pandas index name.  Machine floats do not occur in the claims; values are
modelled as integers or strings.  Fallible operations return `Except`.
-/

namespace Exa

/-- A scalar cell value. -/
inductive Val
  | int (n : Int)
  | str (s : String)
deriving DecidableEq

/-- One column of a table: a dtype label (e.g. "int64", "category")
and the cell values in row order. -/
structure Column where
  dtype : String
  vals : List Val
deriving DecidableEq

/-- A pandas DataFrame, modelled column-major: ordered (name, column) pairs
plus the name of the row index (`df.index.name`). -/
structure Table where
  cols : List (String × Column)
  indexName : Option String
deriving DecidableEq

/-- `df.columns`: the column names in order. -/
def Table.colnames (t : Table) : List String := t.cols.map Prod.fst

/-- Values of a named column of an association list of columns
(first match; empty if absent). -/
def lookupVals (cs : List (String × Column)) (c : String) : List Val :=
  match cs.find? (fun e => e.1 = c) with
  | some e => e.2.vals
  | none => []

/-- dtype of a named column of an association list of columns (first match). -/
def dtypeOfL (cs : List (String × Column)) (c : String) : Option String :=
  (cs.find? (fun e => e.1 = c)).map (fun e => e.2.dtype)

/-- Values of a named column of a table. -/
def Table.colVals (t : Table) (c : String) : List Val := lookupVals t.cols c

/-- dtype of a named column of a table. -/
def Table.dtypeOf (t : Table) (c : String) : Option String := dtypeOfL t.cols c

/-- Number of rows of an association list of columns
(length of the first column; 0 for an empty table). -/
def nrowsL (cs : List (String × Column)) : Nat :=
  match cs with
  | [] => 0
  | e :: _ => e.2.vals.length

/-- Number of rows of a table. -/
def Table.nrows (t : Table) : Nat := nrowsL t.cols

/-- The tuple of values of row `i` restricted to columns `ks`. -/
def Table.keyRow (t : Table) (ks : List String) (i : Nat) : List (Option Val) :=
  ks.map (fun k => (t.colVals k).get? i)

/-- `df.duplicated(subset=ks).any()`: two distinct rows agree on all of `ks`. -/
def Table.hasDupOn (t : Table) (ks : List String) : Bool :=
  (List.range t.nrows).any (fun i =>
    (List.range t.nrows).any (fun j =>
      decide (i < j) && decide (t.keyRow ks i = t.keyRow ks j)))

/-- A payload held by a `Data`: either a DataFrame or an arbitrary
non-tabular value (the class is documented to also hold those). -/
inductive Payload
  | df (t : Table)
  | other (v : Val)
deriving DecidableEq

/-- A resolved data-provider callable: its dotted import path
(`module.__name__` joined, used by `save`) and the function itself. -/
structure Source where
  path : String
  fn : List Val → List (String × Val) → Option Payload

/-- A value assigned to the `source` trait before validation:
a live callable, a dotted namespace string, or a non-callable value. -/
inductive SourceSpec
  | fn (f : Source)
  | path (s : String)
  | value (v : Val)

/-- Errors raised by the embedded operations.  `TraitError`s are split by
site so each carries the data interpolated into its message. -/
inductive DataError
  | requiredColumn (missing : List String) (name : String)
  | duplicates (indexes : List String)
  | keyError (missing : List String)
  | cardinalNotInIndexes (c : String) (indexes : List String)
  | sourceNotImportable
  | sourceNotCallable
  | pathTypeError
  | attributeError
deriving DecidableEq

/-- The traitlets state of a `Data` object: the declared traits plus the
private in-memory cache `_data`. -/
structure Data where
  name : String
  meta : List (String × Val)
  source : Option Source
  call_args : List Val
  call_kws : List (String × Val)
  cardinal : String
  index : String
  indexes : List String
  columns : List String
  categories : List (String × String)
  _data : Option Payload

/-- `df[col] = df[col].astype(conv)` on the column list: every entry named
`col` gets dtype `conv`, values untouched. -/
def updCol (col conv : String) (e : String × Column) : String × Column :=
  if e.1 = col then (e.1, { e.2 with dtype := conv }) else e

/-- The loop of `Data._set_categories` over the `categories` dict, acting on
the column list: `for col, typ in categories: conv = typ if reverse else
'category'; if col in df.columns: df[col] = df[col].astype(conv)`. -/
def setCatsCols (cats : List (String × String)) (reverse : Bool)
    (cs : List (String × Column)) : List (String × Column) :=
  match cats with
  | [] => cs
  | (col, typ) :: rest =>
    let conv := if reverse then typ else "category"
    let cs' := if (cs.map Prod.fst).contains col
      then cs.map (updCol col conv)
      else cs
    setCatsCols rest reverse cs'

/-- `Data._set_categories`: cast each declared categorical column that is
present to `'category'` (or back to its natural type when `reverse`). -/
def Data._set_categories (d : Data) (t : Table) (reverse : Bool) : Table :=
  { t with cols := setCatsCols d.categories reverse t.cols }

/-- `set(self.columns).difference(df.columns)` as an ordered list. -/
def missingCols (d : Data) (t : Table) : List String :=
  d.columns.filter (fun c => !(t.colnames.contains c))

/-- `Data._validate_data`: skip validation for non-DataFrame payloads;
otherwise check required columns, transcode categoricals, stamp the index
name, and check uniqueness over `indexes`.  `df.duplicated(subset=...)`
raises a `KeyError` when a subset column is absent from the frame. -/
def Data._validate_data (d : Data) (p : Option Payload) (reverse : Bool) :
    Except DataError (Option Payload) :=
  match p with
  | some (.df t) =>
    let missing := missingCols d t
    if missing ≠ [] then .error (.requiredColumn missing d.name)
    else
      let t1 := d._set_categories t reverse
      let t2 : Table := { t1 with indexName := some d.index }
      if d.indexes ≠ [] then
        let miss2 := d.indexes.filter (fun c => !(t2.colnames.contains c))
        if miss2 ≠ [] then .error (.keyError miss2)
        else if t2.hasDupOn d.indexes then .error (.duplicates d.indexes)
        else .ok (some (.df t2))
      else .ok (some (.df t2))
  | q => .ok q

/-- `Data.data(df=..., cache=...)`: return the cached payload, or store the
provided one, or invoke `source` (falling back to the no-op `__call__`,
which returns nothing).  The returned `Bool` records whether the
source/`__call__` was invoked during the call. -/
def Data.data (d : Data) (df : Option Payload) (cache : Bool) :
    Except DataError (Data × Option Payload × Bool) :=
  let c0 := if cache then d._data else none
  let c1 := if df.isSome then df else c0
  let (cand, invoked) :=
    match c1 with
    | some x => (some x, false)
    | none =>
      (match d.source with
       | some f => f.fn d.call_args d.call_kws
       | none => none,
       true)
  match d._validate_data cand false with
  | .error e => .error e
  | .ok v => .ok ({ d with _data := v }, v, invoked)

/-- `Data._validate_source`: a string is resolved by importing its dotted
namespace (modelled by the environment `env`); the final value must be
callable. -/
def Data._validate_source (_d : Data) (env : String → Option Source) (s : SourceSpec) :
    Except DataError Source :=
  match s with
  | .path p =>
    match env p with
    | some f => .ok f
    | none => .error .sourceNotImportable
  | .fn f => .ok f
  | .value _ => .error .sourceNotCallable

/-- Assignment to the `source` trait.  traitlets skips cross-validation when
the assigned value is `None` and `allow_none` is set, and fires the
`_observe_source` change handler only when the old and new values differ
(`old == new` suppresses the notification), so assigning `None` over an
already-null source is a silent no-op.  `_observe_source` nullifies
`_data`, `call_args` and `call_kws` when the new value is `None`. -/
def Data.set_source (env : String → Option Source) (d : Data)
    (s : Option SourceSpec) : Except DataError Data :=
  match s with
  | none =>
    match d.source with
    | none => .ok d
    | some _ => .ok { d with source := none, _data := none, call_args := [], call_kws := [] }
  | some spec =>
    match d._validate_source env spec with
    | .error e => .error e
    | .ok f => .ok { d with source := some f }

/-- `Data._validate_cardinal`: `if self.indexes and c not in self.indexes:
raise TraitError(...)`. -/
def Data.set_cardinal (d : Data) (c : String) : Except DataError Data :=
  if d.indexes ≠ [] ∧ c ∉ d.indexes then .error (.cardinalNotInIndexes c d.indexes)
  else .ok { d with cardinal := c }

/-- Assignment to the `indexes` trait: a plain `List` trait with no
validator and no observer. -/
def Data.set_indexes (d : Data) (xs : List String) : Data :=
  { d with indexes := xs }

/-- `Data.__init__(*args, df=None, **kws)`: trait configuration `d` is
applied by the superclass constructor; the initial table, when given, is
stored through `data(df=df)` afterwards.  No source invocation happens when
`df` is absent. -/
def Data.init (d : Data) (df : Option Payload) : Except DataError Data :=
  match df with
  | none => .ok d
  | some p =>
    match d.data (some p) true with
    | .error e => .error e
    | .ok (d1, _, _) => .ok d1

/-- A file path `directory / f'{name}.{ext}'`, kept structured so that the
data file and the manifest file of the same base name are distinct keys. -/
structure FPath where
  dir : String
  base : String
  ext : String
deriving DecidableEq

/-- The manifest (`.yml`) content written by `save`: every declared trait,
with `source` serialized as its dotted import path (the key is absent when
`source` is null, because `save` pops it and re-adds only a non-null one). -/
structure Manifest where
  name : String
  meta : List (String × Val)
  source : Option String
  call_args : List Val
  call_kws : List (String × Val)
  cardinal : String
  index : String
  indexes : List String
  columns : List String
  categories : List (String × String)
deriving DecidableEq

/-- Content of a file on disk: a yaml manifest or a parquet table. -/
inductive FileContent
  | yml (m : Manifest)
  | qet (t : Table)
deriving DecidableEq

/-- The filesystem: an association list from path to content,
most recent write first. -/
def FS := List (FPath × FileContent)

/-- Read a file, if present. -/
def fsRead (fs : FS) (p : FPath) : Option FileContent :=
  (List.find? (fun e => e.1 = p) fs).map Prod.snd

/-- Write (or overwrite) a file. -/
def fsWrite (fs : FS) (p : FPath) (c : FileContent) : FS :=
  (p, c) :: List.filter (fun e => !(e.1 = p : Bool)) fs

/-- The declared traits of a `Data`, with `source` still a live value.
Modelled from the spec: `trait_items` is inherited from `exa.Base`, which is
not part of src/; per the spec the manifest "keys are exactly the Dataset's
non-cache attributes", so it returns every declared trait and not `_data`. -/
structure TraitItems where
  name : String
  meta : List (String × Val)
  source : Option Source
  call_args : List Val
  call_kws : List (String × Val)
  cardinal : String
  index : String
  indexes : List String
  columns : List String
  categories : List (String × String)

/-- Modelled from the spec: `exa.Base.trait_items` (absent from src/)
returns the name-to-value mapping of all declared traits. -/
def Data.trait_items (d : Data) : TraitItems :=
  { name := d.name, meta := d.meta, source := d.source,
    call_args := d.call_args, call_kws := d.call_kws,
    cardinal := d.cardinal, index := d.index, indexes := d.indexes,
    columns := d.columns, categories := d.categories }

/-- Restrict a stored table to the listed columns, in list order. -/
def selectCols (t : Table) (columns : List String) : Table :=
  { cols := columns.filterMap (fun c => t.cols.find? (fun e => e.1 = c)),
    indexName := t.indexName }

/-- `pd.read_parquet(path, columns=cs)` with an explicit (non-None) column
list: only the listed columns are read, in that order (an empty list reads
no columns); requesting a column absent from the file raises. -/
def read_parquet (t : Table) (columns : List String) :
    Except DataError Table :=
  let miss := columns.filter (fun c => !(t.colnames.contains c))
  if miss ≠ [] then .error (.keyError miss)
  else .ok (selectCols t columns)

/-- `Data.save(name=None, directory=None)`: resolve name and directory,
materialize via `data()`, write the parquet file and purge the cache when
the payload is a DataFrame, write the manifest (with `source` as a dotted
string), then re-cache the materialized payload. -/
def Data.save (d : Data) (fs : FS) (savedir : String)
    (nameArg dirArg : Option String) :
    Except DataError (Data × FS × String) :=
  let name := nameArg.getD d.name
  let adir := match dirArg with
    | none => savedir
    | some p => p
  match d.data none true with
  | .error e => .error e
  | .ok (d1, payload, _) =>
    let step : Data × FS := match payload with
      | some (.df t) =>
        ({ d1 with _data := none }, fsWrite fs ⟨adir, name, "qet"⟩ (.qet t))
      | _ => (d1, fs)
    let d2 := step.1
    let ti := d2.trait_items
    let m : Manifest :=
      { name := ti.name, meta := ti.meta,
        source := ti.source.map Source.path,
        call_args := ti.call_args, call_kws := ti.call_kws,
        cardinal := ti.cardinal, index := ti.index, indexes := ti.indexes,
        columns := ti.columns, categories := ti.categories }
    let fs2 := fsWrite step.2 ⟨adir, name, "yml"⟩ (.yml m)
    match payload with
    | none => .ok (d2, fs2, adir)
    | some p =>
      match d2.data (some p) true with
      | .error e => .error e
      | .ok (d3, _, _) => .ok (d3, fs2, adir)

/-- The `load` body `for attr, vals in yml.items(): setattr(self, attr, vals)`
(`_from_yml` is inherited from `exa.Base`, absent from src/; modelled from
the spec: "parse it and apply every key/value pair as an attribute
assignment").  `yaml.dump` sorts keys, so assignment order is alphabetical:
call_args, call_kws, cardinal, categories, columns, index, indexes, meta,
name, source.  Assignments run the traitlets validators (`cardinal`,
`source`); a `source` key is present only when it was non-null at save. -/
def Data.apply_manifest (env : String → Option Source) (d : Data)
    (m : Manifest) : Except DataError Data :=
  let d0 := { d with call_args := m.call_args, call_kws := m.call_kws }
  match d0.set_cardinal m.cardinal with
  | .error e => .error e
  | .ok d1 =>
    let d2 := { d1 with categories := m.categories, columns := m.columns,
                        index := m.index }
    let d3 := d2.set_indexes m.indexes
    let d4 := { d3 with meta := m.meta, name := m.name }
    match m.source with
    | none => .ok d4
    | some s => d4.set_source env (some (.path s))

/-- `Data.load(yml=None, qet=None, name=None, directory=None)`:
`name = name or self.name`, then `directory = Path(directory) or
exa.cfg.savedir` — `Path(None)` raises `TypeError` before the `or` can
reach the default, and a constructed `Path` is always truthy, so an
explicit directory is always used as given.  Then apply the manifest if
its file exists (else warn and skip), and read the parquet file into the
cache restricted to `self.columns` if it exists (else warn and skip). -/
def Data.load (env : String → Option Source) (_savedir : String) (d : Data)
    (fs : FS) (nameArg dirArg : Option String) :
    Except DataError (Data × String) :=
  let name := nameArg.getD d.name
  match dirArg with
  | none => .error .pathTypeError
  | some directory =>
    let step1 : Except DataError Data :=
      match fsRead fs ⟨directory, name, "yml"⟩ with
      | some (.yml m) => d.apply_manifest env m
      | _ => .ok d
    match step1 with
    | .error e => .error e
    | .ok d1 =>
      match fsRead fs ⟨directory, name, "qet"⟩ with
      | some (.qet t) =>
        match read_parquet t d1.columns with
        | .error e => .error e
        | .ok t' => .ok ({ d1 with _data := some (.df t') }, directory)
      | _ => .ok (d1, directory)

/-- `Data.unset_categories()` as a runner over the body of the `with`
block: materialize, reverse-transcode the view, run the body (which may
itself fail — the `finally` runs on every exit path), then forward
transcode and re-cache via `data(df=...)`.  When the materialized payload
is not a DataFrame and `categories` is non-empty, the `finally`'s
`self._set_categories(df)` touches `df.columns` on a non-frame and raises
`AttributeError`. -/
def Data.unset_categories (d : Data)
    (body : Option Payload → Except DataError Unit) :
    Except DataError (Except DataError Unit × Data) :=
  match d.data none true with
  | .error e => .error e
  | .ok (d1, p, _) =>
    match p with
    | some (.df t) =>
      let view := d1._set_categories t true
      let res := body (some (.df view))
      match d1.data (some (.df (d1._set_categories view false))) true with
      | .error e => .error e
      | .ok (d2, _, _) => .ok (res, d2)
    | q =>
      let res := body q
      if d1.categories ≠ [] then .error .attributeError
      else
        match d1.data q true with
        | .error e => .error e
        | .ok (d2, _, _) => .ok (res, d2)

/-! ## Structural lemmas about categorical transcoding -/

theorem updCol_fst (col conv : String) (e : String × Column) :
    (updCol col conv e).1 = e.1 := by
  unfold updCol; split <;> rfl

theorem updCol_vals (col conv : String) (e : String × Column) :
    (updCol col conv e).2.vals = e.2.vals := by
  unfold updCol; split <;> rfl

theorem map_fst_map_updCol (col conv : String) (cs : List (String × Column)) :
    (cs.map (updCol col conv)).map Prod.fst = cs.map Prod.fst := by
  induction cs with
  | nil => rfl
  | cons e rest ih => simp [updCol_fst, ih]

theorem find?_map_updCol (col conv c : String) (cs : List (String × Column)) :
    (cs.map (updCol col conv)).find? (fun e => e.1 = c)
      = (cs.find? (fun e => e.1 = c)).map (updCol col conv) := by
  induction cs with
  | nil => rfl
  | cons e rest ih =>
    by_cases h : e.1 = c
    · simp [List.find?_cons, updCol_fst, h]
    · simp [List.find?_cons, updCol_fst, h, ih]

theorem lookupVals_map_updCol (col conv c : String)
    (cs : List (String × Column)) :
    lookupVals (cs.map (updCol col conv)) c = lookupVals cs c := by
  unfold lookupVals
  rw [find?_map_updCol]
  cases cs.find? (fun e => e.1 = c) with
  | none => rfl
  | some e => simp [updCol_vals]

theorem nrowsL_map_updCol (col conv : String) (cs : List (String × Column)) :
    nrowsL (cs.map (updCol col conv)) = nrowsL cs := by
  cases cs with
  | nil => rfl
  | cons e rest => simp [nrowsL, updCol_vals]

theorem setCatsCols_map_fst (cats : List (String × String)) (rev : Bool)
    (cs : List (String × Column)) :
    (setCatsCols cats rev cs).map Prod.fst = cs.map Prod.fst := by
  induction cats generalizing cs with
  | nil => rfl
  | cons e rest ih =>
    obtain ⟨col, typ⟩ := e
    simp only [setCatsCols]
    split
    · rw [ih, map_fst_map_updCol]
    · exact ih cs

theorem lookupVals_setCatsCols (cats : List (String × String)) (rev : Bool)
    (c : String) (cs : List (String × Column)) :
    lookupVals (setCatsCols cats rev cs) c = lookupVals cs c := by
  induction cats generalizing cs with
  | nil => rfl
  | cons e rest ih =>
    obtain ⟨col, typ⟩ := e
    simp only [setCatsCols]
    split
    · rw [ih, lookupVals_map_updCol]
    · exact ih cs

theorem nrowsL_setCatsCols (cats : List (String × String)) (rev : Bool)
    (cs : List (String × Column)) :
    nrowsL (setCatsCols cats rev cs) = nrowsL cs := by
  induction cats generalizing cs with
  | nil => rfl
  | cons e rest ih =>
    obtain ⟨col, typ⟩ := e
    simp only [setCatsCols]
    split
    · rw [ih, nrowsL_map_updCol]
    · exact ih cs

theorem colnames_set_categories (d : Data) (t : Table) (rev : Bool) :
    (d._set_categories t rev).colnames = t.colnames := by
  simp [Data._set_categories, Table.colnames, setCatsCols_map_fst]

theorem colVals_set_categories (d : Data) (t : Table) (rev : Bool)
    (c : String) : (d._set_categories t rev).colVals c = t.colVals c := by
  simp [Data._set_categories, Table.colVals, lookupVals_setCatsCols]

theorem nrows_set_categories (d : Data) (t : Table) (rev : Bool) :
    (d._set_categories t rev).nrows = t.nrows := by
  simp [Data._set_categories, Table.nrows, nrowsL_setCatsCols]

/-- `hasDupOn` depends only on the key-column values and the row count. -/
theorem hasDupOn_congr (t t' : Table) (ks : List String)
    (hv : ∀ c, t'.colVals c = t.colVals c) (hn : t'.nrows = t.nrows) :
    t'.hasDupOn ks = t.hasDupOn ks := by
  have hk : ∀ i, t'.keyRow ks i = t.keyRow ks i := by
    intro i
    unfold Table.keyRow
    exact List.map_congr_left (fun k _ => by rw [hv])
  unfold Table.hasDupOn
  rw [hn]
  congr 1
  funext i
  congr 1
  funext j
  rw [hk, hk]

theorem dtypeOfL_map_updCol_ne (col conv c : String)
    (cs : List (String × Column)) (h : c ≠ col) :
    dtypeOfL (cs.map (updCol col conv)) c = dtypeOfL cs c := by
  induction cs with
  | nil => rfl
  | cons e rest ih =>
    by_cases h1 : e.1 = c
    · have hu : updCol col conv e = e := by
        have : ¬ e.1 = col := fun hc => h (h1 ▸ hc)
        simp [updCol, this]
      simp [dtypeOfL, List.find?_cons, hu, h1]
    · simpa [dtypeOfL, List.find?_cons, updCol_fst, h1] using ih

theorem dtypeOfL_map_updCol_self (col conv : String)
    (cs : List (String × Column)) (h : (cs.map Prod.fst).contains col = true) :
    dtypeOfL (cs.map (updCol col conv)) col = some conv := by
  induction cs with
  | nil => simp at h
  | cons e rest ih =>
    by_cases h1 : e.1 = col
    · simp [dtypeOfL, List.find?_cons, updCol_fst, h1, updCol]
    · have h' : (rest.map Prod.fst).contains col = true := by
        cases hcb : (rest.map Prod.fst).contains col with
        | true => rfl
        | false =>
          exfalso
          rw [show ((e :: rest).map Prod.fst) = e.1 :: rest.map Prod.fst from rfl,
            List.contains_cons, hcb, Bool.or_false] at h
          exact h1 (beq_iff_eq.mp h).symm
      simpa [dtypeOfL, List.find?_cons, updCol_fst, h1] using ih h'

/-- A column never mentioned in the categories dict keeps its dtype. -/
theorem dtypeOfL_setCatsCols_notMem (cats : List (String × String))
    (rev : Bool) (c : String) (cs : List (String × Column))
    (h : ∀ τ, (c, τ) ∉ cats) :
    dtypeOfL (setCatsCols cats rev cs) c = dtypeOfL cs c := by
  induction cats generalizing cs with
  | nil => rfl
  | cons e rest ih =>
    obtain ⟨col, typ⟩ := e
    have hne : c ≠ col := by
      intro hc
      exact h typ (by rw [hc]; exact List.mem_cons_self _ _)
    have hrest : ∀ τ, (c, τ) ∉ rest := fun τ hm => h τ (List.mem_cons_of_mem _ hm)
    simp only [setCatsCols]
    split
    · rw [ih _ hrest, dtypeOfL_map_updCol_ne _ _ _ _ hne]
    · exact ih cs hrest

/-- A declared categorical column that is present in the table ends up with
dtype `'category'` (or its declared natural type when `reverse`), provided
the categories dict has no duplicate keys (a python dict never does). -/
theorem dtypeOfL_setCatsCols_mem (cats : List (String × String)) (rev : Bool)
    (c τ : String) (cs : List (String × Column))
    (hnd : (cats.map Prod.fst).Nodup) (hmem : (c, τ) ∈ cats)
    (hpres : (cs.map Prod.fst).contains c = true) :
    dtypeOfL (setCatsCols cats rev cs) c = some (if rev then τ else "category") := by
  induction cats generalizing cs with
  | nil => exact absurd hmem (List.not_mem_nil _)
  | cons e rest ih =>
    obtain ⟨col, typ⟩ := e
    have hnd' : (rest.map Prod.fst).Nodup := (List.nodup_cons.mp hnd).2
    by_cases hc : c = col
    · -- this key is processed first; `c` is in no later pair, so its dtype survives
      subst hc
      have hτ : τ = typ := by
        rcases List.mem_cons.mp hmem with hh | ht
        · exact congrArg Prod.snd hh
        · exfalso
          exact (List.nodup_cons.mp hnd).1 (List.mem_map.mpr ⟨(c, τ), ht, rfl⟩)
      subst hτ
      have hrest : ∀ τ', (c, τ') ∉ rest := by
        intro τ' hm
        exact (List.nodup_cons.mp hnd).1 (List.mem_map.mpr ⟨(c, τ'), hm, rfl⟩)
      simp only [setCatsCols]
      rw [if_pos hpres]
      rw [dtypeOfL_setCatsCols_notMem _ _ _ _ hrest]
      exact dtypeOfL_map_updCol_self _ _ _ hpres
    · have ht : (c, τ) ∈ rest := by
        rcases List.mem_cons.mp hmem with hh | ht
        · exact absurd (congrArg Prod.fst hh) hc
        · exact ht
      simp only [setCatsCols]
      split
      · exact ih _ hnd' ht (by rw [map_fst_map_updCol]; exact hpres)
      · exact ih _ hnd' ht hpres

theorem updCol_comm_same (a b v : String) (e : String × Column) :
    updCol a v (updCol b v e) = updCol b v (updCol a v e) := by
  obtain ⟨n, col⟩ := e
  by_cases ha : n = a <;> by_cases hb : n = b
  · have hab : a = b := ha.symm.trans hb
    simp [updCol, ha, hb, hab]
  · have hab : ¬ a = b := fun h => hb (ha.trans h)
    have hba : ¬ b = a := fun h => hab h.symm
    simp [updCol, ha, hb, hab, hba]
  · have hab : ¬ a = b := fun h => ha (hb.trans h.symm)
    have hba : ¬ b = a := fun h => hab h.symm
    simp [updCol, ha, hb, hab, hba]
  · simp [updCol, ha, hb]

theorem updCol_idem (a v : String) (e : String × Column) :
    updCol a v (updCol a v e) = updCol a v e := by
  obtain ⟨n, col⟩ := e
  by_cases ha : n = a <;> simp [updCol, ha]

theorem map_updCol_comm (a b v : String) (cs : List (String × Column)) :
    (cs.map (updCol b v)).map (updCol a v) = (cs.map (updCol a v)).map (updCol b v) := by
  rw [List.map_map, List.map_map]
  exact List.map_congr_left (fun e _ => updCol_comm_same a b v e)

theorem map_updCol_idem (a v : String) (cs : List (String × Column)) :
    (cs.map (updCol a v)).map (updCol a v) = cs.map (updCol a v) := by
  rw [List.map_map]
  exact List.map_congr_left (fun e _ => updCol_idem a v e)

/-- Forward transcoding commutes with a single forward column update. -/
theorem setCatsCols_false_map_updCol (cats : List (String × String))
    (col : String) (cs : List (String × Column)) :
    setCatsCols cats false (cs.map (updCol col "category"))
      = (setCatsCols cats false cs).map (updCol col "category") := by
  induction cats generalizing cs with
  | nil => rfl
  | cons e rest ih =>
    obtain ⟨c1, t1⟩ := e
    simp only [setCatsCols, map_fst_map_updCol, Bool.false_eq_true, if_false]
    split
    · rw [map_updCol_comm, ih]
    · exact ih cs

/-- Forward transcoding is idempotent. -/
theorem setCatsCols_false_idem (cats : List (String × String))
    (cs : List (String × Column)) :
    setCatsCols cats false (setCatsCols cats false cs)
      = setCatsCols cats false cs := by
  induction cats generalizing cs with
  | nil => rfl
  | cons e rest ih =>
    obtain ⟨c1, t1⟩ := e
    simp only [setCatsCols, Bool.false_eq_true, if_false]
    split
    · rename_i hg
      rw [show setCatsCols rest false (cs.map (updCol c1 "category"))
            = (setCatsCols rest false cs).map (updCol c1 "category")
          from setCatsCols_false_map_updCol rest c1 cs]
      rw [map_fst_map_updCol, setCatsCols_map_fst, if_pos hg]
      rw [map_updCol_idem, ← setCatsCols_false_map_updCol, ih]
    · rename_i hg
      rw [setCatsCols_map_fst, if_neg hg]
      exact ih cs

/-! ## Shape of successful validation -/

theorem colnames_mk_setCatsCols (d : Data) (cs : List (String × Column))
    (idx : Option String) :
    (Table.mk (setCatsCols d.categories false cs) idx).colnames
      = (Table.mk cs idx).colnames := by
  simp [Table.colnames, setCatsCols_map_fst]

/-- Successful validation of a DataFrame yields the transcoded, index-stamped
table, and records that the checks passed. -/
theorem validate_df_ok_elim (d : Data) (t0 : Table) (p : Option Payload)
    (h : d._validate_data (some (.df t0)) false = .ok p) :
    p = some (.df ⟨setCatsCols d.categories false t0.cols, some d.index⟩) ∧
    missingCols d t0 = [] ∧
    (d.indexes ≠ [] →
      d.indexes.filter
        (fun c => !((Table.mk (setCatsCols d.categories false t0.cols)
          (some d.index)).colnames.contains c)) = [] ∧
      (Table.mk (setCatsCols d.categories false t0.cols)
        (some d.index)).hasDupOn d.indexes = false) := by
  dsimp only [Data._validate_data, Data._set_categories] at h
  by_cases hm : missingCols d t0 = []
  · rw [if_neg (fun hc => hc hm)] at h
    by_cases hi : d.indexes = []
    · rw [if_neg (fun hc => hc hi)] at h
      refine ⟨(Except.ok.inj h).symm, hm, fun hc => absurd hi hc⟩
    · rw [if_pos hi] at h
      split at h
      · exact absurd h (by simp)
      · split at h
        · exact absurd h (by simp)
        · rename_i hmiss2 hdup
          refine ⟨(Except.ok.inj h).symm, hm, fun _ => ⟨?_, ?_⟩⟩
          · exact Decidable.of_not_not hmiss2
          · exact Bool.of_not_eq_true hdup
  · rw [if_pos hm] at h
    exact absurd h (by simp)

/-- Re-validating a table that validation itself produced succeeds and
returns it unchanged (validation is idempotent on its own output). -/
theorem validate_df_fixpoint (d : Data) (t0 t : Table)
    (h : d._validate_data (some (.df t0)) false = .ok (some (.df t))) :
    d._validate_data (some (.df t)) false = .ok (some (.df t)) := by
  obtain ⟨hp, hm, hchecks⟩ := validate_df_ok_elim d t0 _ h
  have ht : t = ⟨setCatsCols d.categories false t0.cols, some d.index⟩ :=
    Payload.df.inj (Option.some.inj hp)
  subst ht
  dsimp only [Data._validate_data, Data._set_categories]
  have hcn : (Table.mk (setCatsCols d.categories false t0.cols)
      (some d.index)).colnames = t0.colnames := by
    simp [Table.colnames, setCatsCols_map_fst]
  have hm' : missingCols d ⟨setCatsCols d.categories false t0.cols,
      some d.index⟩ = [] := by
    unfold missingCols
    rw [hcn]
    exact hm
  rw [if_neg (fun hc => hc hm')]
  rw [setCatsCols_false_idem]
  by_cases hi : d.indexes = []
  · rw [if_neg (fun hc => hc hi)]
  · obtain ⟨hmiss2, hdup⟩ := hchecks hi
    rw [if_pos hi, if_neg (fun hc => hc hmiss2),
      if_neg (fun hc => Bool.false_ne_true (hdup.symm.trans hc))]

/-! ## Concrete fixtures -/

/-- A freshly constructed `Data` with every trait at its traitlets default. -/
def defaultData : Data :=
  { name := "", meta := [], source := none, call_args := [], call_kws := [],
    cardinal := "", index := "", indexes := [], columns := [],
    categories := [], _data := none }

/-- An import environment with nothing importable. -/
def emptyEnv : String → Option Source := fun _ => none

/-! ## Claims -/

/-- Claim C2: the claim says that when `directory` is omitted, `load`
defaults it to the process-wide save location and proceeds.  The code
instead computes `Path(directory) or exa.cfg.savedir`, and `Path(None)`
raises `TypeError` before the default can be reached, for every Dataset,
filesystem and name argument. -/
theorem load_none_directory_raises (env : String → Option Source)
    (savedir : String) (d : Data) (fs : FS) (nameArg : Option String) :
    Data.load env savedir d fs nameArg none = .error .pathTypeError := rfl

/-- Claim C5 counterexample: a Dataset whose source is already null but whose
`call_args`, `call_kws` and cache are non-empty.  Assigning `None` to
`source` again is silent (traitlets fires no change notification when old
and new compare equal), so nothing is cleared — contradicting the claim's
"for every Dataset in any state". -/
def c5Data : Data :=
  { defaultData with
    call_args := [.int 1], call_kws := [("k", .int 2)],
    _data := some (.other (.int 7)) }

/-- Claim C5 is false as stated: setting `source` to null on `c5Data`
(whose source is already null) leaves `call_args`, `call_kws` and the
cache untouched and non-empty. -/
theorem nullify_source_counterexample :
    c5Data.source = none ∧
    Data.set_source emptyEnv c5Data none = .ok c5Data ∧
    c5Data.call_args ≠ [] ∧ c5Data.call_kws ≠ [] ∧ c5Data._data ≠ none :=
  ⟨rfl, rfl, by decide, by decide, by decide⟩

/-- Claim C5 amended: setting `source` to null on a Dataset whose source is
currently non-null results in empty `call_args`, empty `call_kws` and a
null cache (when the source is already null the assignment is a silent
no-op and prior state persists). -/
theorem nullify_source_amended (env : String → Option Source) (d : Data)
    (f : Source) (h : d.source = some f) :
    d.set_source env none
      = .ok { d with
              source := none, _data := none,
              call_args := [], call_kws := [] } := by
  unfold Data.set_source
  rw [h]

/-- A materialized Dataset with a live source, used to witness the amended
C5 statement. -/
def c5wData : Data :=
  { defaultData with
    source := some ⟨"mod.f", fun _ _ => none⟩,
    call_args := [.int 3], call_kws := [("a", .int 4)],
    _data := some (.other (.int 9)) }

/-- Witness for the amended C5: nullifying the non-null source of `c5wData`
clears its arguments and cache. -/
theorem nullify_source_amended_witness :
    Data.set_source emptyEnv c5wData none
      = .ok { c5wData with
              source := none, _data := none,
              call_args := [], call_kws := [] } :=
  nullify_source_amended emptyEnv c5wData ⟨"mod.f", fun _ _ => none⟩ rfl

/-- Claim C8 counterexample start state: `indexes = ["y"]`, no cardinal. -/
def c8Data : Data := { defaultData with indexes := ["y"] }

/-- Claim C8 is false as stated: after legally assigning `cardinal = "y"`,
reassigning `indexes = ["z"]` is accepted without any re-check, reaching a
state whose non-empty cardinal is absent from its non-empty indexes. -/
theorem cardinal_invariant_counterexample :
    Data.set_cardinal c8Data "y" = .ok { c8Data with cardinal := "y" } ∧
    (Data.set_indexes { c8Data with cardinal := "y" } ["z"]).cardinal = "y" ∧
    (Data.set_indexes { c8Data with cardinal := "y" } ["z"]).indexes = ["z"] ∧
    ("y" : String) ≠ "" ∧ (["z"] : List String) ≠ [] ∧
    "y" ∉ (["z"] : List String) :=
  ⟨rfl, rfl, rfl, by decide, by decide, by decide⟩

/-- Claim C8 amended: the membership check holds at cardinal-assignment time
— assigning a cardinal not among non-empty declared indexes fails with the
configuration error naming both, assigning a member (or assigning with
empty indexes) succeeds — but the invariant is not maintained by later
`indexes` reassignment. -/
theorem cardinal_check_amended (d : Data) (c : String) :
    (d.indexes ≠ [] → c ∉ d.indexes →
      d.set_cardinal c = .error (.cardinalNotInIndexes c d.indexes)) ∧
    (c ∈ d.indexes → d.set_cardinal c = .ok { d with cardinal := c }) ∧
    (d.indexes = [] → d.set_cardinal c = .ok { d with cardinal := c }) := by
  refine ⟨fun h1 h2 => ?_, fun h => ?_, fun h => ?_⟩
  · unfold Data.set_cardinal
    rw [if_pos ⟨h1, h2⟩]
  · unfold Data.set_cardinal
    rw [if_neg (fun hc => hc.2 h)]
  · unfold Data.set_cardinal
    rw [if_neg (fun hc => hc.1 h)]

/-- A Dataset with `indexes = ["y", "z"]`, used to witness the amended C8. -/
def c8wData : Data := { defaultData with indexes := ["y", "z"] }

/-- Witness for the amended C8: `cardinal = "x"` is rejected on
`indexes = ["y","z"]` and `cardinal = "y"` is accepted. -/
theorem cardinal_check_amended_witness :
    Data.set_cardinal c8wData "x"
      = .error (.cardinalNotInIndexes "x" ["y", "z"]) ∧
    Data.set_cardinal c8wData "y" = .ok { c8wData with cardinal := "y" } :=
  ⟨(cardinal_check_amended c8wData "x").1 (by decide) (by decide),
   (cardinal_check_amended c8wData "y").2.1 (by decide)⟩

/-- `hasDupOn` holds exactly when two distinct rows agree on the key
columns. -/
theorem hasDupOn_eq_true_iff (t : Table) (ks : List String) :
    t.hasDupOn ks = true ↔
      ∃ i j, i < j ∧ j < t.nrows ∧ t.keyRow ks i = t.keyRow ks j := by
  unfold Table.hasDupOn
  rw [List.any_eq_true]
  constructor
  · rintro ⟨i, _, hinner⟩
    rw [List.any_eq_true] at hinner
    obtain ⟨j, hj, hP⟩ := hinner
    rw [Bool.and_eq_true, decide_eq_true_eq, decide_eq_true_eq] at hP
    exact ⟨i, j, hP.1, List.mem_range.mp hj, hP.2⟩
  · rintro ⟨i, j, hij, hj, heq⟩
    refine ⟨i, List.mem_range.mpr (lt_trans hij hj), ?_⟩
    rw [List.any_eq_true]
    refine ⟨j, List.mem_range.mpr hj, ?_⟩
    rw [Bool.and_eq_true]
    exact ⟨decide_eq_true hij, decide_eq_true heq⟩

/-- Supplying a payload to `data` makes it the candidate (setter mode):
only validation and caching remain, and the source is not invoked. -/
theorem data_supplied (d : Data) (p : Payload) (cache : Bool) :
    d.data (some p) cache
      = match d._validate_data (some p) false with
        | .error e => .error e
        | .ok v => .ok ({ d with _data := v }, v, false) := rfl

/-- With no payload supplied and an empty cache, `data` invokes the source
on the stored call arguments. -/
theorem data_invoke (d : Data) (f : Source)
    (hsrc : d.source = some f) (hcache : d._data = none) :
    d.data none true
      = match d._validate_data (f.fn d.call_args d.call_kws) false with
        | .error e => .error e
        | .ok v => .ok ({ d with _data := v }, v, true) := by
  unfold Data.data
  rw [hcache, hsrc]
  rfl

/-- With a cached payload and `cache=True`, `data` re-validates the cache
and does not invoke the source. -/
theorem data_cached (d : Data) (p : Payload) (hcache : d._data = some p) :
    d.data none true
      = match d._validate_data (some p) false with
        | .error e => .error e
        | .ok v => .ok ({ d with _data := v }, v, false) := by
  unfold Data.data
  rw [hcache]
  rfl

/-- Claim C6: a candidate table lacking declared required columns fails
validation — and hence materialization through `data()`, whether the table
was supplied directly or produced by the source — with a
`RequiredColumnError` carrying exactly the missing set and the Dataset's
name.  No hypothesis about duplicates or categoricals is needed: the
required-column check fires before transcoding and the uniqueness check. -/
theorem required_column_enforcement (d : Data) (t : Table) (f : Source)
    (hmiss : missingCols d t ≠ [])
    (hsrc : d.source = some f)
    (hfn : f.fn d.call_args d.call_kws = some (.df t))
    (hcache : d._data = none) :
    d._validate_data (some (.df t)) false
      = .error (.requiredColumn (missingCols d t) d.name) ∧
    (∀ c, c ∈ missingCols d t ↔ c ∈ d.columns ∧ c ∉ t.colnames) ∧
    d.data (some (.df t)) true
      = .error (.requiredColumn (missingCols d t) d.name) ∧
    d.data none true = .error (.requiredColumn (missingCols d t) d.name) := by
  have h1 : d._validate_data (some (.df t)) false
      = .error (.requiredColumn (missingCols d t) d.name) := by
    dsimp only [Data._validate_data]
    rw [if_pos hmiss]
  refine ⟨h1, ?_, ?_, ?_⟩
  · intro c
    unfold missingCols
    rw [List.mem_filter]
    constructor
    · rintro ⟨hc, hb⟩
      rw [Bool.not_eq_true'] at hb
      refine ⟨hc, fun hm => ?_⟩
      exact Bool.false_ne_true (hb.symm.trans (List.elem_iff.mpr hm))
    · rintro ⟨hc, hb⟩
      refine ⟨hc, ?_⟩
      rw [Bool.not_eq_true']
      cases hcb : t.colnames.contains c with
      | false => rfl
      | true => exact absurd (List.elem_iff.mp hcb) hb
  · rw [data_supplied, h1]
  · rw [data_invoke d f hsrc hcache, hfn, h1]

/-- A Dataset requiring columns `a` and `b`, keyed on `a`, with a source. -/
def c6Table : Table := ⟨[("a", ⟨"int64", [.int 1, .int 1]⟩)], none⟩

/-- Fixture for C6: `columns = ["a","b"]`, `indexes = ["a"]`, and a source
producing `c6Table`, which lacks `b` and also has duplicate `a` values
(the error is still the required-column one). -/
def c6Data : Data :=
  { defaultData with
    name := "ds", columns := ["a", "b"], indexes := ["a"],
    source := some ⟨"mod.g", fun _ _ => some (.df c6Table)⟩ }

/-- Witness for C6 at a concrete Dataset and table. -/
theorem required_column_enforcement_witness :
    Data._validate_data c6Data (some (.df c6Table)) false
      = .error (.requiredColumn (missingCols c6Data c6Table) c6Data.name) ∧
    (∀ c, c ∈ missingCols c6Data c6Table ↔
      c ∈ c6Data.columns ∧ c ∉ c6Table.colnames) ∧
    Data.data c6Data (some (.df c6Table)) true
      = .error (.requiredColumn (missingCols c6Data c6Table) c6Data.name) ∧
    Data.data c6Data none true
      = .error (.requiredColumn (missingCols c6Data c6Table) c6Data.name) :=
  required_column_enforcement c6Data c6Table
    ⟨"mod.g", fun _ _ => some (.df c6Table)⟩ (by decide) rfl rfl rfl

/-- Claim C7: with non-empty `indexes` (all present in the table, required
columns present), validation fails with the error naming the offending
columns exactly when two distinct rows agree on the `indexes` combination,
and succeeds when all combinations are distinct. -/
theorem uniqueness_enforcement (d : Data) (t : Table)
    (hidx : d.indexes ≠ [])
    (hcols : missingCols d t = [])
    (hkeys : d.indexes.filter (fun c => !(t.colnames.contains c)) = []) :
    (t.hasDupOn d.indexes = true ↔
      ∃ i j, i < j ∧ j < t.nrows ∧
        t.keyRow d.indexes i = t.keyRow d.indexes j) ∧
    (t.hasDupOn d.indexes = true →
      d._validate_data (some (.df t)) false = .error (.duplicates d.indexes)) ∧
    (t.hasDupOn d.indexes = false →
      d._validate_data (some (.df t)) false
        = .ok (some (.df ⟨setCatsCols d.categories false t.cols,
            some d.index⟩))) := by
  have hcn : (Table.mk (setCatsCols d.categories false t.cols)
      (some d.index)).colnames = t.colnames := by
    simp [Table.colnames, setCatsCols_map_fst]
  have hdup_eq : (Table.mk (setCatsCols d.categories false t.cols)
      (some d.index)).hasDupOn d.indexes = t.hasDupOn d.indexes := by
    refine hasDupOn_congr _ _ _ (fun c => ?_) ?_
    · exact lookupVals_setCatsCols d.categories false c t.cols
    · exact nrowsL_setCatsCols d.categories false t.cols
  refine ⟨hasDupOn_eq_true_iff t d.indexes, ?_, ?_⟩
  all_goals intro h
  all_goals dsimp only [Data._validate_data, Data._set_categories]
  all_goals rw [if_neg (fun hc => hc hcols), if_pos hidx, hcn,
    if_neg (fun hc => hc hkeys), hdup_eq]
  · rw [if_pos h]
  · rw [if_neg (fun hc => Bool.false_ne_true (h.symm.trans hc))]

/-- Fixture for C7: keyed on `id`. -/
def c7Data : Data := { defaultData with indexes := ["id"] }

/-- A table with two rows sharing `id = 1`. -/
def c7Dup : Table := ⟨[("id", ⟨"int64", [.int 1, .int 1]⟩)], none⟩

/-- A table with all-distinct `id` values. -/
def c7Ok : Table := ⟨[("id", ⟨"int64", [.int 1, .int 2]⟩)], none⟩

/-- Witness for C7: the duplicate table is rejected with the error naming
`["id"]`, the distinct table passes validation. -/
theorem uniqueness_enforcement_witness :
    Data._validate_data c7Data (some (.df c7Dup)) false
      = .error (.duplicates ["id"]) ∧
    Data._validate_data c7Data (some (.df c7Ok)) false
      = .ok (some (.df ⟨c7Ok.cols, some ""⟩)) :=
  ⟨(uniqueness_enforcement c7Data c7Dup (by decide) rfl rfl).2.1 (by decide),
   (uniqueness_enforcement c7Data c7Ok (by decide) rfl rfl).2.2 (by decide)⟩

/-- Claim C4: for a Dataset configured with a source and no initial table,
construction does not invoke the source; the first `data()` call does (the
returned invocation flag is true); and once a table has been cached, a
further `data()` with `cache=True` returns the identical cached table with
no further invocation and no state change. -/
theorem lazy_source_invocation (d d1 : Data) (f : Source) (t : Table)
    (p : Option Payload) (b : Bool)
    (hsrc : d.source = some f) (hcache : d._data = none)
    (hfirst : d.data none true = .ok (d1, p, b)) :
    Data.init d none = .ok d ∧
    b = true ∧
    (p = some (.df t) → d1.data none true = .ok (d1, some (.df t), false)) := by
  rw [data_invoke d f hsrc hcache] at hfirst
  refine ⟨rfl, ?_, ?_⟩
  · cases hv : d._validate_data (f.fn d.call_args d.call_kws) false with
    | error e => rw [hv] at hfirst; exact absurd hfirst (by simp)
    | ok v =>
      rw [hv] at hfirst
      simp only [Except.ok.injEq, Prod.mk.injEq] at hfirst
      exact hfirst.2.2.symm
  · intro hp
    subst hp
    cases hv : d._validate_data (f.fn d.call_args d.call_kws) false with
    | error e => rw [hv] at hfirst; exact absurd hfirst (by simp)
    | ok v =>
      rw [hv] at hfirst
      simp only [Except.ok.injEq, Prod.mk.injEq] at hfirst
      obtain ⟨hd1, hpv, _⟩ := hfirst
      subst hpv
      subst hd1
      cases hcand : f.fn d.call_args d.call_kws with
      | none =>
        rw [hcand] at hv
        dsimp only [Data._validate_data] at hv
        exact absurd hv (by simp)
      | some pc =>
        cases pc with
        | other w =>
          rw [hcand] at hv
          dsimp only [Data._validate_data] at hv
          exact absurd hv (by simp)
        | df t0 =>
          rw [hcand] at hv
          have hfix := validate_df_fixpoint d t0 t hv
          rw [data_cached _ (.df t) rfl]
          rw [show ({ d with _data := some (.df t) } : Data)._validate_data
                (some (.df t)) false
              = d._validate_data (some (.df t)) false from rfl, hfix]

/-- The table produced by the C4 witness source. -/
def c4Table : Table := ⟨[("a", ⟨"int64", [.int 1]⟩)], none⟩

/-- Fixture for C4: a fresh Dataset whose source yields `c4Table`. -/
def c4Data : Data :=
  { defaultData with
    source := some ⟨"mod.h", fun _ _ => some (.df c4Table)⟩ }

/-- Witness for C4 at a concrete Dataset: the first call invokes and caches
the validated table; the second call returns it without invoking. -/
theorem lazy_source_invocation_witness :
    Data.init c4Data none = .ok c4Data ∧
    true = true ∧
    ((some (Payload.df ⟨c4Table.cols, some ""⟩) : Option Payload)
        = some (Payload.df ⟨c4Table.cols, some ""⟩) →
      Data.data { c4Data with _data := some (.df ⟨c4Table.cols, some ""⟩) }
          none true
        = .ok ({ c4Data with _data := some (.df ⟨c4Table.cols, some ""⟩) },
            some (.df ⟨c4Table.cols, some ""⟩), false)) :=
  lazy_source_invocation c4Data
    { c4Data with _data := some (.df ⟨c4Table.cols, some ""⟩) }
    ⟨"mod.h", fun _ _ => some (.df c4Table)⟩
    ⟨c4Table.cols, some ""⟩ (some (.df ⟨c4Table.cols, some ""⟩)) true
    rfl rfl rfl

/-- Claim C10: replacing the source of a materialized Dataset with a
different non-null callable leaves the cached table untouched; the next
`data()` with `cache=True` returns the cached table without invoking the
new source; `cache=False` does force an invocation, and nullifying the
source does clear the cache and call arguments. -/
theorem replace_source_frame (env : String → Option Source) (d : Data)
    (t0 t : Table) (g : Source)
    (hdata : d._data = some (.df t))
    (hval : d._validate_data (some (.df t0)) false = .ok (some (.df t))) :
    ∃ d', d.set_source env (some (.fn g)) = .ok d' ∧
      d'._data = some (.df t) ∧ d'.source = some g ∧
      d'.data none true = .ok (d', some (.df t), false) ∧
      (∀ d2 p b, d'.data none false = .ok (d2, p, b) → b = true) ∧
      (∃ d3, d'.set_source env none = .ok d3 ∧ d3._data = none ∧
        d3.call_args = [] ∧ d3.call_kws = []) := by
  refine ⟨{ d with source := some g }, rfl, hdata, rfl, ?_, ?_, ?_⟩
  · rw [data_cached { d with source := some g } (.df t) hdata]
    rw [show ({ d with source := some g } : Data)._validate_data
          (some (.df t)) false
        = d._validate_data (some (.df t)) false from rfl,
      validate_df_fixpoint d t0 t hval]
    rw [← hdata]
  · intro d2 p b hb
    have hform : ({ d with source := some g } : Data).data none false
        = match ({ d with source := some g } : Data)._validate_data
            (g.fn d.call_args d.call_kws) false with
          | .error e => .error e
          | .ok v => .ok ({ d with source := some g, _data := v }, v, true) := rfl
    rw [hform] at hb
    cases hv : ({ d with source := some g } : Data)._validate_data
        (g.fn d.call_args d.call_kws) false with
    | error e => rw [hv] at hb; exact absurd hb (by simp)
    | ok v =>
      rw [hv] at hb
      simp only [Except.ok.injEq, Prod.mk.injEq] at hb
      exact hb.2.2.symm
  · exact ⟨_, rfl, rfl, rfl, rfl⟩

/-- A validated cached table for the C10 witness. -/
def c10Table : Table := ⟨[("a", ⟨"int64", [.int 1]⟩)], some ""⟩

/-- Fixture for C10: a materialized Dataset with a live source. -/
def c10Data : Data :=
  { defaultData with
    source := some ⟨"mod.h", fun _ _ => some (.df c4Table)⟩,
    _data := some (.df c10Table) }

/-- A replacement source for the C10 witness. -/
def c10NewSource : Source := ⟨"mod.k", fun _ _ => none⟩

/-- Witness for C10 at a concrete materialized Dataset. -/
theorem replace_source_frame_witness :
    ∃ d', c10Data.set_source emptyEnv (some (.fn c10NewSource)) = .ok d' ∧
      d'._data = some (.df c10Table) ∧ d'.source = some c10NewSource ∧
      d'.data none true = .ok (d', some (.df c10Table), false) ∧
      (∀ d2 p b, d'.data none false = .ok (d2, p, b) → b = true) ∧
      (∃ d3, d'.set_source emptyEnv none = .ok d3 ∧ d3._data = none ∧
        d3.call_args = [] ∧ d3.call_kws = []) :=
  replace_source_frame emptyEnv c10Data ⟨c10Table.cols, none⟩ c10Table
    c10NewSource rfl rfl

/-- With no cache and no source, `data` falls back to the no-op `__call__`,
which produces nothing. -/
theorem data_no_source (d : Data) (hsrc : d.source = none)
    (hcache : d._data = none) :
    d.data none true = .ok ({ d with _data := none }, none, true) := by
  unfold Data.data
  rw [hcache, hsrc]
  rfl

/-- Any successful `data()` call (no payload supplied, cache on) that
returns a DataFrame caches it, and the cached table is the output of a
successful validation. -/
theorem data_none_true_ok_elim (d d1 : Data) (t : Table) (b : Bool)
    (hrun : d.data none true = .ok (d1, some (.df t), b)) :
    d1 = { d with _data := some (.df t) } ∧
    ∃ t0, d._validate_data (some (.df t0)) false = .ok (some (.df t)) := by
  cases hd : d._data with
  | none =>
    cases hs : d.source with
    | none =>
      rw [data_no_source d hs hd] at hrun
      exact absurd hrun (by simp)
    | some f =>
      rw [data_invoke d f hs hd] at hrun
      cases hc : f.fn d.call_args d.call_kws with
      | none =>
        rw [hc] at hrun
        dsimp only [Data._validate_data] at hrun
        exact absurd hrun (by simp)
      | some pc =>
        cases pc with
        | other w =>
          rw [hc] at hrun
          dsimp only [Data._validate_data] at hrun
          exact absurd hrun (by simp)
        | df t0 =>
          rw [hc] at hrun
          cases hv : d._validate_data (some (.df t0)) false with
          | error e => rw [hv] at hrun; exact absurd hrun (by simp)
          | ok v =>
            rw [hv] at hrun
            simp only [Except.ok.injEq, Prod.mk.injEq] at hrun
            obtain ⟨h1, h2, _⟩ := hrun
            subst h2
            rw [hs] at h1
            exact ⟨h1.symm, t0, hv⟩
  | some p0 =>
    cases p0 with
    | other w =>
      rw [data_cached d (.other w) hd] at hrun
      dsimp only [Data._validate_data] at hrun
      exact absurd hrun (by simp)
    | df t0 =>
      rw [data_cached d (.df t0) hd] at hrun
      cases hv : d._validate_data (some (.df t0)) false with
      | error e => rw [hv] at hrun; exact absurd hrun (by simp)
      | ok v =>
        rw [hv] at hrun
        simp only [Except.ok.injEq, Prod.mk.injEq] at hrun
        obtain ⟨h1, h2, _⟩ := hrun
        subst h2
        exact ⟨h1.symm, t0, hv⟩

/-- Validation succeeds on any table with the same column names, values and
row count as a table on which it is a fixpoint (only dtypes may differ,
and validation re-normalizes those). -/
theorem validate_df_ok_of_same_shape (d : Data) (t t' : Table)
    (h : d._validate_data (some (.df t)) false = .ok (some (.df t)))
    (hcn : t'.colnames = t.colnames)
    (hv : ∀ c, t'.colVals c = t.colVals c)
    (hn : t'.nrows = t.nrows) :
    d._validate_data (some (.df t')) false
      = .ok (some (.df ⟨setCatsCols d.categories false t'.cols,
          some d.index⟩)) := by
  obtain ⟨hp, hm, hchecks⟩ := validate_df_ok_elim d t _ h
  have ht : t = ⟨setCatsCols d.categories false t.cols, some d.index⟩ :=
    Payload.df.inj (Option.some.inj hp)
  dsimp only [Data._validate_data, Data._set_categories]
  have hm' : missingCols d t' = [] := by
    unfold missingCols
    rw [hcn]
    exact hm
  rw [if_neg (fun hc => hc hm')]
  by_cases hi : d.indexes = []
  · rw [if_neg (fun hc => hc hi)]
  · obtain ⟨hmiss2, hdup⟩ := hchecks hi
    have hcn2 : (Table.mk (setCatsCols d.categories false t'.cols)
        (some d.index)).colnames
        = (Table.mk (setCatsCols d.categories false t.cols)
            (some d.index)).colnames := by
      unfold Table.colnames at hcn ⊢
      rw [setCatsCols_map_fst, setCatsCols_map_fst]
      exact hcn
    have hdup2 : (Table.mk (setCatsCols d.categories false t'.cols)
        (some d.index)).hasDupOn d.indexes
        = (Table.mk (setCatsCols d.categories false t.cols)
            (some d.index)).hasDupOn d.indexes := by
      refine hasDupOn_congr _ _ _ (fun c => ?_) ?_
      · show lookupVals (setCatsCols d.categories false t'.cols) c
          = lookupVals (setCatsCols d.categories false t.cols) c
        rw [lookupVals_setCatsCols, lookupVals_setCatsCols]
        exact hv c
      · show nrowsL (setCatsCols d.categories false t'.cols)
          = nrowsL (setCatsCols d.categories false t.cols)
        rw [nrowsL_setCatsCols, nrowsL_setCatsCols]
        exact hn
    rw [if_pos hi, hcn2, if_neg (fun hc => hc hmiss2), hdup2,
      if_neg (fun hc => Bool.false_ne_true (hdup.symm.trans hc))]

/-- Claim C9: for a Dataset whose `data()` materializes a DataFrame, inside
the `unset_categories` scope every declared categorical column present in
the table reports its declared natural type; and for every body — whether
it returns normally or fails — the scope exits by forward-transcoding and
re-caching, leaving every such column with dtype `'category'` in the
cache. -/
theorem unset_categories_scoped (d d1 : Data) (t : Table) (b : Bool)
    (body : Option Payload → Except DataError Unit)
    (hrun : d.data none true = .ok (d1, some (.df t), b))
    (hnd : (d.categories.map Prod.fst).Nodup) :
    (∀ c τ, (c, τ) ∈ d.categories → t.colnames.contains c = true →
      (d1._set_categories t true).dtypeOf c = some τ) ∧
    (∃ d2 t2, d.unset_categories body
        = .ok (body (some (.df (d1._set_categories t true))), d2) ∧
      d2._data = some (.df t2) ∧
      (∀ c τ, (c, τ) ∈ d.categories → t.colnames.contains c = true →
        t2.dtypeOf c = some "category")) := by
  obtain ⟨hd1, t0, hval⟩ := data_none_true_ok_elim d d1 t b hrun
  subst hd1
  have hfix := validate_df_fixpoint d t0 t hval
  constructor
  · intro c τ hmem hpres
    exact dtypeOfL_setCatsCols_mem d.categories true c τ t.cols hnd hmem hpres
  · -- the reverse-transcoded view, then the finally's forward transcode
    set dl : Data := { d with _data := some (.df t) } with hdl
    set u : Table := dl._set_categories (dl._set_categories t true) false
      with hu
    have hcnu : u.colnames = t.colnames := by
      rw [hu, colnames_set_categories, colnames_set_categories]
    have hvu : ∀ c, u.colVals c = t.colVals c := fun c => by
      rw [hu, colVals_set_categories, colVals_set_categories]
    have hnu : u.nrows = t.nrows := by
      rw [hu, nrows_set_categories, nrows_set_categories]
    have hok : dl._validate_data (some (.df u)) false
        = .ok (some (.df ⟨setCatsCols d.categories false u.cols,
            some d.index⟩)) :=
      validate_df_ok_of_same_shape d t u hfix hcnu hvu hnu
    refine ⟨{ d with _data := some (.df ⟨setCatsCols d.categories false u.cols,
        some d.index⟩) }, ⟨setCatsCols d.categories false u.cols,
        some d.index⟩, ?_, rfl, ?_⟩
    · unfold Data.unset_categories
      rw [hrun]
      dsimp only
      rw [data_supplied, hok]
    · intro c τ hmem hpres
      have hpres' : (u.cols.map Prod.fst).contains c = true := by
        rw [show u.cols.map Prod.fst = t.colnames from hcnu]
        exact hpres
      exact dtypeOfL_setCatsCols_mem d.categories false c τ u.cols hnd hmem
        hpres'

/-- A categorically-encoded cached table for the C9 witness. -/
def c9Table : Table := ⟨[("a", ⟨"category", [.int 1, .int 2]⟩)], some ""⟩

/-- Fixture for C9: column `a` declared categorical with natural type
`int64`, table already materialized. -/
def c9Data : Data :=
  { defaultData with
    categories := [("a", "int64")],
    _data := some (.df c9Table) }

/-- A body that fails, exercising the error exit path of the scope. -/
def c9Body : Option Payload → Except DataError Unit := fun _ =>
  .error .sourceNotCallable

/-- Witness for C9 at a concrete Dataset, with a body that raises: inside
the scope `a` has dtype `int64`; after the scope the cache has `a` back at
dtype `category`. -/
theorem unset_categories_scoped_witness :
    (∀ c τ, (c, τ) ∈ c9Data.categories →
      c9Table.colnames.contains c = true →
      (({ c9Data with _data := some (.df c9Table) } : Data)._set_categories
        c9Table true).dtypeOf c = some τ) ∧
    (∃ d2 t2, c9Data.unset_categories c9Body
        = .ok (c9Body (some (.df (({ c9Data with
            _data := some (.df c9Table) } : Data)._set_categories
              c9Table true))), d2) ∧
      d2._data = some (.df t2) ∧
      (∀ c τ, (c, τ) ∈ c9Data.categories →
        c9Table.colnames.contains c = true →
        t2.dtypeOf c = some "category")) :=
  unset_categories_scoped c9Data
    { c9Data with _data := some (.df c9Table) }
    c9Table false c9Body rfl (by decide)

/-! ## Filesystem and column-selection lemmas -/

theorem fsRead_write_self (fs : FS) (p : FPath) (c : FileContent) :
    fsRead (fsWrite fs p c) p = some c := by
  unfold fsRead fsWrite
  rw [List.find?_cons]
  simp

theorem find?_filter_ne (fs : List (FPath × FileContent)) (p q : FPath)
    (h : q ≠ p) :
    (fs.filter (fun e => !(e.1 = p : Bool))).find? (fun e => e.1 = q)
      = fs.find? (fun e => e.1 = q) := by
  induction fs with
  | nil => rfl
  | cons e rest ih =>
    by_cases he : e.1 = p
    · have hdp : (decide (e.1 = p)) = true := decide_eq_true he
      have hdq : (decide (e.1 = q)) = false :=
        decide_eq_false (fun hc => h (hc.symm.trans he))
      simp only [List.filter_cons, List.find?_cons, hdp, hdq, Bool.not_true,
        Bool.false_eq_true, if_false]
      exact ih
    · have hdp : (decide (e.1 = p)) = false := decide_eq_false he
      by_cases hq : e.1 = q
      · have hdq : (decide (e.1 = q)) = true := decide_eq_true hq
        simp only [List.filter_cons, List.find?_cons, hdp, hdq,
          Bool.not_false, if_true]
      · have hdq : (decide (e.1 = q)) = false := decide_eq_false hq
        simp only [List.filter_cons, List.find?_cons, hdp, hdq,
          Bool.not_false, Bool.false_eq_true, if_false, if_true]
        exact ih

theorem fsRead_write_ne (fs : FS) (p q : FPath) (c : FileContent)
    (h : q ≠ p) : fsRead (fsWrite fs p c) q = fsRead fs q := by
  unfold fsRead fsWrite
  rw [List.find?_cons]
  have hpq : (decide ((p, c).1 = q)) = false := by
    simp only [decide_eq_false_iff_not]
    exact fun hc => h hc.symm
  rw [hpq]
  rw [find?_filter_ne fs p q h]

theorem filterMap_find?_self (cs : List (String × Column))
    (hnd : (cs.map Prod.fst).Nodup) :
    (cs.map Prod.fst).filterMap
      (fun c => cs.find? (fun e => e.1 = c)) = cs := by
  induction cs with
  | nil => rfl
  | cons e rest ih =>
    have hnotin : e.1 ∉ rest.map Prod.fst := (List.nodup_cons.mp hnd).1
    have hnd' : (rest.map Prod.fst).Nodup := (List.nodup_cons.mp hnd).2
    show ((e.1 :: rest.map Prod.fst).filterMap
      (fun c => (e :: rest).find? (fun x => x.1 = c))) = e :: rest
    rw [List.filterMap_cons]
    have hhead : (e :: rest).find? (fun x => x.1 = e.1) = some e := by
      rw [List.find?_cons]
      simp
    rw [hhead]
    have htail : (rest.map Prod.fst).filterMap
        (fun c => (e :: rest).find? (fun x => x.1 = c))
        = (rest.map Prod.fst).filterMap
          (fun c => rest.find? (fun x => x.1 = c)) := by
      refine List.filterMap_congr (fun c hc => ?_)
      rw [List.find?_cons]
      have : (decide (e.1 = c)) = false := by
        simp only [decide_eq_false_iff_not]
        exact fun he => hnotin (he ▸ hc)
      rw [this]
    rw [htail, ih hnd']

/-- Selecting exactly a table's own (duplicate-free) column list is the
identity. -/
theorem selectCols_self (t : Table) (hnd : t.colnames.Nodup) :
    selectCols t t.colnames = t := by
  unfold selectCols
  rw [show t.colnames = t.cols.map Prod.fst from rfl,
    filterMap_find?_self t.cols hnd]

/-- The table stored in the data file for the C3 counterexample. -/
def c3Stored : Table := ⟨[("a", ⟨"int64", [.int 5]⟩)], none⟩

/-- A filesystem holding only the data file (no manifest) under the
default Dataset name. -/
def c3FS : FS := [(⟨"dir", "", "qet"⟩, .qet c3Stored)]

/-- Claim C3 is false as stated: with no declared columns, `load` passes
the empty column list to the parquet reader (`columns=[]` is not `None`),
so the cache receives a table with no columns instead of the full stored
table. -/
theorem load_empty_columns_counterexample :
    defaultData.columns = [] ∧
    Data.load emptyEnv "sv" defaultData c3FS none (some "dir")
      = .ok ({ defaultData with _data := some (.df ⟨[], none⟩) }, "dir") ∧
    (⟨[], none⟩ : Table) ≠ c3Stored :=
  ⟨rfl, rfl, by decide⟩

/-- Claim C3 amended: when the data file exists at the resolved location
(no manifest present), `load` reads it into the cache restricted to the
declared required columns — including `columns = []`, which reads a table
with no columns rather than the full table; when the data file is absent,
the cache is left unchanged. -/
theorem load_qet_amended (env : String → Option Source) (savedir : String)
    (d : Data) (fs : FS) (dir : String)
    (hyml : fsRead fs ⟨dir, d.name, "yml"⟩ = none) :
    (∀ t, fsRead fs ⟨dir, d.name, "qet"⟩ = some (.qet t) →
      (∀ c, c ∈ d.columns → t.colnames.contains c = true) →
      Data.load env savedir d fs none (some dir)
        = .ok ({ d with _data := some (.df (selectCols t d.columns)) },
            dir)) ∧
    (d.columns = [] → ∀ t, fsRead fs ⟨dir, d.name, "qet"⟩ = some (.qet t) →
      Data.load env savedir d fs none (some dir)
        = .ok ({ d with _data := some (.df ⟨[], t.indexName⟩) }, dir)) ∧
    (fsRead fs ⟨dir, d.name, "qet"⟩ = none →
      Data.load env savedir d fs none (some dir) = .ok (d, dir)) := by
  have hmain : ∀ t, fsRead fs ⟨dir, d.name, "qet"⟩ = some (.qet t) →
      (∀ c, c ∈ d.columns → t.colnames.contains c = true) →
      Data.load env savedir d fs none (some dir)
        = .ok ({ d with _data := some (.df (selectCols t d.columns)) },
            dir) := by
    intro t hq hsub
    unfold Data.load
    dsimp only [Option.getD]
    rw [hyml, hq]
    dsimp only
    unfold read_parquet
    dsimp only
    have hmiss : d.columns.filter (fun c => !(t.colnames.contains c)) = [] :=
      List.filter_eq_nil_iff.mpr (fun c hc => by rw [hsub c hc]; decide)
    rw [if_neg (fun hcond => hcond hmiss)]
  refine ⟨hmain, ?_, ?_⟩
  · intro hc t hq
    have hvac : ∀ c, c ∈ d.columns → t.colnames.contains c = true := by
      rw [hc]
      exact fun c hmem => absurd hmem (List.not_mem_nil c)
    have hsel : selectCols t d.columns = ⟨[], t.indexName⟩ := by
      rw [hc]
      rfl
    rw [← hsel]
    exact hmain t hq hvac
  · intro hq
    unfold Data.load
    dsimp only [Option.getD]
    rw [hyml, hq]

/-- A stored table with three columns for the C3 witness. -/
def c3wStored : Table :=
  ⟨[("a", ⟨"int64", [.int 1]⟩), ("b", ⟨"int64", [.int 2]⟩),
    ("c", ⟨"int64", [.int 3]⟩)], some ""⟩

/-- Fixture for the C3 witness: declared columns `["b","a"]`, name `w`. -/
def c3wData : Data := { defaultData with name := "w", columns := ["b", "a"] }

/-- Filesystem for the C3 witness: only the data file. -/
def c3wFS : FS := [(⟨"dir", "w", "qet"⟩, .qet c3wStored)]

/-- Witness for the amended C3: the loaded cache is the stored table
restricted (and reordered) to the declared columns, dropping column `c`;
an absent file leaves the Dataset unchanged. -/
theorem load_qet_amended_witness :
    Data.load emptyEnv "sv" c3wData c3wFS none (some "dir")
      = .ok ({ c3wData with
          _data := some (.df (selectCols c3wStored ["b", "a"])) }, "dir") ∧
    Data.load emptyEnv "sv" c3wData [] none (some "dir")
      = .ok (c3wData, "dir") :=
  ⟨(load_qet_amended emptyEnv "sv" c3wData c3wFS "dir" rfl).1 c3wStored rfl
      (by decide),
   (load_qet_amended emptyEnv "sv" c3wData [] "dir" rfl).2.2 rfl⟩

/-- The manifest `save` writes for a Dataset: its traits, with `source`
serialized as a dotted path. -/
def Data.manifestOf (d : Data) : Manifest :=
  { name := d.name, meta := d.meta,
    source := Option.map Source.path d.source,
    call_args := d.call_args, call_kws := d.call_kws,
    cardinal := d.cardinal, index := d.index, indexes := d.indexes,
    columns := d.columns, categories := d.categories }

/-- Re-applying a Dataset's own manifest to a fresh Dataset of the same
configuration is the identity on the configuration, provided the cardinal
check passes and the serialized source (if any) resolves back to the same
callable. -/
theorem apply_manifest_self (env : String → Option Source) (d : Data)
    (h5 : d.indexes = [] ∨ d.cardinal ∈ d.indexes)
    (h6 : ∀ f, d.source = some f → env f.path = some f) :
    Data.apply_manifest env { d with _data := none } d.manifestOf
      = .ok { d with _data := none } := by
  unfold Data.apply_manifest Data.manifestOf
  dsimp only
  unfold Data.set_cardinal
  dsimp only
  rw [if_neg (fun hc => match h5 with
    | Or.inl he => hc.1 he
    | Or.inr hm => hc.2 hm)]
  dsimp only [Data.set_indexes]
  cases hs : d.source with
  | none => rfl
  | some f =>
    dsimp only [Option.map]
    unfold Data.set_source Data._validate_source
    dsimp only
    rw [h6 f hs]

/-- The materialized single-column table for the C1 counterexample. -/
def c1Table : Table := ⟨[("a", ⟨"int64", [.int 1]⟩)], some ""⟩

/-- A materialized Dataset with no declared required columns. -/
def c1CexData : Data :=
  { defaultData with name := "t", _data := some (.df c1Table) }

/-- Claim C1 is false as stated: for a materialized Dataset with no
declared required columns, `save()` then `load()` into a fresh Dataset of
the same configuration succeeds but caches a table with no columns
(`read_parquet` is called with `columns=[]`), not one equal to the
original. -/
theorem round_trip_counterexample :
    ∃ dS fs1, Data.save c1CexData [] "sv" none (some "dir")
        = .ok (dS, fs1, "dir") ∧
      Data.load emptyEnv "sv" { c1CexData with _data := none } fs1 none
          (some "dir")
        = .ok ({ c1CexData with _data := some (.df ⟨[], some ""⟩) }, "dir") ∧
      some (Payload.df (⟨[], some ""⟩ : Table)) ≠ c1CexData._data :=
  ⟨_, _, rfl, rfl, by decide⟩

/-- Claim C1 amended: the save/load round-trip restores the table and the
configuration provided the materialized table's columns are exactly the
declared required columns (duplicate-free), the cardinal re-check passes
(indexes empty or cardinal among them), the serialized source (if any)
resolves back to the same callable, and the directory is passed explicitly
to `load` (passing none raises, see C2).  The fresh Dataset's cache then
equals the original cached table and its configuration equals the original
on every declared field. -/
theorem round_trip_amended (env : String → Option Source) (d : Data)
    (t : Table) (fs : FS) (savedir dir : String)
    (h1 : d._data = some (.df t))
    (h2 : d._validate_data (some (.df t)) false = .ok (some (.df t)))
    (h3 : t.colnames = d.columns)
    (h4 : t.colnames.Nodup)
    (h5 : d.indexes = [] ∨ d.cardinal ∈ d.indexes)
    (h6 : ∀ f, d.source = some f → env f.path = some f) :
    ∃ dS fs1, d.save fs savedir none (some dir) = .ok (dS, fs1, dir) ∧
      ∃ dL, Data.load env savedir { d with _data := none } fs1 none
          (some dir) = .ok (dL, dir) ∧
        dL._data = some (.df t) ∧
        dL.trait_items = d.trait_items := by
  have hdata1 : d.data none true
      = .ok ({ d with _data := some (.df t) }, some (.df t), false) := by
    rw [data_cached d (.df t) h1, h2]
  have hrecache : ({ d with _data := none } : Data).data (some (.df t)) true
      = .ok ({ d with _data := some (.df t) }, some (.df t), false) := by
    rw [data_supplied]
    rw [show ({ d with _data := none } : Data)._validate_data
        (some (.df t)) false = d._validate_data (some (.df t)) false from rfl,
      h2]
  have hne : (⟨dir, d.name, "qet"⟩ : FPath) ≠ ⟨dir, d.name, "yml"⟩ :=
    fun hc => (by decide : ("qet" : String) ≠ "yml") (congrArg FPath.ext hc)
  have hmiss : d.columns.filter (fun c => !(t.colnames.contains c)) = [] := by
    refine List.filter_eq_nil_iff.mpr (fun c hc => ?_)
    rw [← h3] at hc
    have hct : t.colnames.contains c = true := List.elem_iff.mpr hc
    rw [hct]
    decide
  have hsave : d.save fs savedir none (some dir)
      = .ok ({ d with _data := some (.df t) },
          fsWrite (fsWrite fs ⟨dir, d.name, "qet"⟩ (.qet t))
            ⟨dir, d.name, "yml"⟩ (.yml d.manifestOf), dir) := by
    unfold Data.save
    dsimp only [Option.getD]
    rw [hdata1]
    dsimp only [Data.trait_items, Data.manifestOf]
    rw [hrecache]
  have hload : Data.load env savedir { d with _data := none }
      (fsWrite (fsWrite fs ⟨dir, d.name, "qet"⟩ (.qet t))
        ⟨dir, d.name, "yml"⟩ (.yml d.manifestOf)) none (some dir)
      = .ok ({ d with _data := some (.df t) }, dir) := by
    unfold Data.load
    dsimp only [Option.getD]
    rw [fsRead_write_self]
    dsimp only
    rw [apply_manifest_self env d h5 h6]
    dsimp only
    rw [fsRead_write_ne _ _ _ _ hne, fsRead_write_self]
    dsimp only
    unfold read_parquet
    dsimp only
    rw [if_neg (fun hc => hc hmiss)]
    rw [show selectCols t d.columns = t from by
      rw [← h3]; exact selectCols_self t h4]
  exact ⟨_, _, hsave, _, hload, rfl, rfl⟩

/-- The materialized table for the C1 witness. -/
def c1wTable : Table := ⟨[("a", ⟨"int64", [.int 1, .int 2]⟩)], some ""⟩

/-- A materialized Dataset whose table's columns are exactly its declared
required columns. -/
def c1wData : Data :=
  { defaultData with
    name := "t", columns := ["a"], _data := some (.df c1wTable) }

/-- Witness for the amended C1 at a concrete Dataset. -/
theorem round_trip_amended_witness :
    ∃ dS fs1, c1wData.save [] "sv" none (some "dir") = .ok (dS, fs1, "dir") ∧
      ∃ dL, Data.load emptyEnv "sv" { c1wData with _data := none } fs1 none
          (some "dir") = .ok (dL, "dir") ∧
        dL._data = some (.df c1wTable) ∧
        dL.trait_items = c1wData.trait_items :=
  round_trip_amended emptyEnv c1wData c1wTable [] "sv" "dir" rfl rfl rfl
    (by decide) (Or.inl rfl) (fun f hf => nomatch hf)

end Exa
